import Mathlib

/-!
Shallow embedding of the Onshape export tool core
(src/onshape/client.py and src/onshape/workflow.py),
together with theorems settling the specification claims.

Remote API effects are modelled explicitly: the document is a list of
elements (respectively a list of features, a list of parts), and each
operation that mutates the remote document is a function on that state.
Fallible paths are modelled with Option / Except, and the distinct
outcomes of an abstracted inner step (success, soft failure, raised
exception) are enumerated as inductive outcome types.
-/

namespace Onshape

/-! ### Python string primitives -/

/-- Python str.lower, applied character by character. -/
def py_lower (s : String) : String := ⟨s.data.map Char.toLower⟩

/-- Python str.endswith. -/
def py_endswith (s suffix : String) : Bool := suffix.data.isSuffixOf s.data

/-- Python str.startswith. -/
def py_startswith (s pre : String) : Bool := pre.data.isPrefixOf s.data

/-- Python sub in s (substring containment). -/
def py_contains (s sub : String) : Bool :=
  (s.data.tails).any (fun t => sub.data.isPrefixOf t)

/-- Python str.replace with a single-character pattern and replacement. -/
def py_replace_char (s : String) (old new : Char) : String :=
  ⟨s.data.map (fun c => if c = old then new else c)⟩

/-- The single-quote character, as a string. -/
def squote : String := String.singleton (Char.ofNat 39)

/-! ### DocContext (client.py lines 34-54) -/

/-- Bundles document/workspace/version IDs for API path construction. -/
structure DocContext where
  did : String
  wvm_type : String
  wvm_id : String
deriving DecidableEq

def doc_path (ctx : DocContext) (suffix : String) : String :=
  "/d/" ++ ctx.did ++ "/" ++ ctx.wvm_type ++ "/" ++ ctx.wvm_id ++ suffix

def is_mutable (ctx : DocContext) : Bool := ctx.wvm_type == "w"

def make_workspace_context (did wid : String) : DocContext := ⟨did, "w", wid⟩

def make_version_context (did vid : String) : DocContext := ⟨did, "v", vid⟩

/-! ### Document elements and discovery (workflow.py lines 26, 145-167) -/

/-- One entry of the document element listing. -/
structure DocElement where
  id : String
  name : String
  elementType : String
  dataType : String
deriving DecidableEq

/-- workflow.py line 26: prefixes for temporary elements. -/
def TEMP_ELEMENT_PREFIXES : List String := ["TEMP_", "DEBUG_VIEW_", "TEST_MV_"]

/-- Python name.startswith(tuple_of_prefixes). -/
def startswith_any (name : String) (ps : List String) : Bool :=
  ps.any (fun p => py_startswith name p)

/-- workflow.py discover_exportables, lines 145-167.  The source first calls
list_elements; here the listing is the argument.  Note that the reserved
temporary-prefix filter of line 164 is applied to the drawings list only. -/
def discover_exportables (elements : List DocElement) :
    List DocElement × List DocElement :=
  let part_studios := elements.filter (fun e => e.elementType == "PARTSTUDIO")
  let drawings := elements.filter (fun e =>
    e.elementType == "DRAWING" ||
      (e.elementType == "APPLICATION" && py_contains (py_lower e.dataType) "drawing"))
  let drawings := drawings.filter (fun d => !(startswith_any d.name TEMP_ELEMENT_PREFIXES))
  (part_studios, drawings)

/-! ### Part categorization (client.py lines 148-165) -/

/-- One entry of a part listing.  partId and unflattenedPartId are absent in
some server responses (Python dict.get returns None), hence Option. -/
structure Part where
  partId : Option String
  name : String
  isFlattenedBody : Bool
  unflattenedPartId : Option String
deriving DecidableEq

/-- Python truthiness of an optional string: None and the empty string are falsy. -/
def truthy_str (o : Option String) : Bool :=
  match o with
  | none => false
  | some s => s != ""

/-- client.py categorize_parts, lines 148-165.  The single pass of the source
appends flattened parts to flat_patterns, collects their truthy
unflattenedPartId values into flat_part_originals, appends the rest to
regular_parts, and finally filters regular_parts against the completed
originals set; the three filters below compute exactly those lists. -/
def categorize_parts (parts : List Part) : List Part × List Part :=
  let flat_patterns := parts.filter (fun p => p.isFlattenedBody)
  let flat_part_originals := (parts.filter (fun p => p.isFlattenedBody)).filterMap
    (fun p => if truthy_str p.unflattenedPartId then p.unflattenedPartId else none)
  let regular_parts := parts.filter (fun p => !p.isFlattenedBody)
  let regular_parts := regular_parts.filter (fun p =>
    match p.partId with
    | none => true
    | some pid => !flat_part_originals.contains pid)
  (flat_patterns, regular_parts)

/-! ### Filename assembly (client.py lines 199-353)

Thickness values (millimetres, floats in the source) are embedded as exact
rationals. -/

/-- Kernel-reducible floor of 10 * x + 1/2 (the denominator of a rational is
positive, so integer floor division of 20 * num + den by 2 * den computes it
without invoking rational normalisation). -/
def floor_tenths (x : ℚ) : Int := Int.fdiv (20 * x.num + (x.den : Int)) (2 * (x.den : Int))

/-- client.py format_thickness_prefix, lines 199-206.  The source formats to
one decimal place and strips a trailing zero and dot; producing the integer
part alone when the tenths digit is zero is the same string.  Rounding is
half-up on the exact rational where CPython rounds the nearest binary double
to even; the two agree except at exact midpoints of a tenth. -/
def format_thickness_prefix (thickness_mm : Option ℚ) : String :=
  match thickness_mm with
  | none => ""
  | some x =>
    if x ≤ 0 then ""
    else
      let t : Int := floor_tenths x
      let formatted : String :=
        if t % 10 == 0 then toString (t / 10)
        else toString (t / 10) ++ "." ++ toString (t % 10)
      formatted ++ "mm"

/-- Properties fetched from Onshape metadata for filename assembly
(client.py lines 209-213, a TypedDict with all keys optional). -/
structure PartProperties where
  part_number : Option String := none
  revision : Option String := none
  material : Option String := none

/-- client.py line 302: thickness_str is the formatted prefix when
thickness_mm is truthy (not None and nonzero), else the empty string. -/
def thickness_str_of (thickness_mm : Option ℚ) : String :=
  match thickness_mm with
  | none => ""
  | some x => if x == 0 then "" else format_thickness_prefix (some x)

/-- client.py build_export_filename, lines 291-327. -/
def build_export_filename (fallback_name : String) (props : PartProperties)
    (extension : String) (thickness_mm : Option ℚ) (include_material : Bool) : String :=
  let part_number := props.part_number.getD ""
  let revision := props.revision.getD ""
  let material := if include_material then props.material.getD "" else ""
  let thickness_str := thickness_str_of thickness_mm
  if part_number != "" && revision != "" then
    let parts := (if thickness_str != "" then [thickness_str] else [])
      ++ (if material != "" then [material] else [])
    let core := part_number ++ "_Rev " ++ revision
    if parts != [] then String.intercalate " " parts ++ "_" ++ core ++ "." ++ extension
    else core ++ "." ++ extension
  else if thickness_str != "" then thickness_str ++ fallback_name ++ "." ++ extension
  else if py_endswith (py_lower fallback_name) ("." ++ extension) then fallback_name
  else fallback_name ++ "." ++ extension

/-- client.py build_dxf_filename, lines 330-342. -/
def build_dxf_filename (part_name : String) (thickness_mm : Option ℚ)
    (props : PartProperties) : String :=
  build_export_filename part_name props "dxf" thickness_mm true

/-- client.py build_pdf_filename, lines 345-353. -/
def build_pdf_filename (name : String) (props : PartProperties) : String :=
  build_export_filename name props "pdf" none false

/-! ### Bounded polling and translation (client.py lines 59-76, 519-550)

The source polls fetch() at a fixed interval until a timeout.  The list
argument is the sequence of fetch results available inside the bounded
polling window, in order; reaching the end of the list is the timeout. -/

/-- client.py poll_until, lines 59-76: skip fetches that returned None, return
the first non-None classification, None once the timeout is exhausted. -/
def poll_until {α β : Type} (fetches : List (Option α)) (pred : α → Option β) : Option β :=
  match fetches with
  | [] => none
  | f :: rest =>
    match f with
    | none => poll_until rest pred
    | some r =>
      match pred r with
      | some m => some m
      | none => poll_until rest pred

/-- A translation status response (client.py lines 532-545 reads requestState,
resultElementIds and failureReason). -/
structure TranslationResponse where
  requestState : String
  resultElementIds : List String
  failureReason : String
deriving DecidableEq

/-- client.py check_state, lines 532-545: DONE with a nonempty id list yields
its first id; DONE with an empty list and FAILED yield the sentinel; anything
else keeps polling. -/
def check_state (resp : TranslationResponse) : Option String :=
  if resp.requestState == "DONE" then
    match resp.resultElementIds with
    | [] => some "__ERROR__"
    | id :: _ => some id
  else if resp.requestState == "FAILED" then some "__ERROR__"
  else none

/-- The branches of check_state that set the error_occurred cell in the
source (DONE with an empty id list, and FAILED). -/
def check_state_sets_error (resp : TranslationResponse) : Bool :=
  if resp.requestState == "DONE" then resp.resultElementIds.isEmpty
  else resp.requestState == "FAILED"

/-- client.py poll_translation, lines 519-550.  The source threads a mutable
error_occurred cell; every branch that sets it returns a non-None
classification on the same iteration, so poll_until stops there and the value
of the cell on exit is check_state_sets_error of the matched response, paired
here with the classification. -/
def poll_translation (fetches : List (Option TranslationResponse)) : Option String :=
  match poll_until fetches
      (fun r => (check_state r).map (fun m => (m, check_state_sets_error r))) with
  | none => none
  | some (m, err) => if err then none else some m

/-- The classification the spec describes, written from its words: scan the
fetched statuses in order; Done with a nonempty result-id list is a success
carrying the first id, Done with an empty list or Failed is a failure, any
other status continues, and exhausting the timeout is the not-ready outcome. -/
def translation_outcome_spec (fetches : List (Option TranslationResponse)) : Option String :=
  match fetches with
  | [] => none
  | none :: rest => translation_outcome_spec rest
  | some r :: rest =>
    if r.requestState == "DONE" then
      match r.resultElementIds with
      | [] => none
      | id :: _ => some id
    else if r.requestState == "FAILED" then none
    else translation_outcome_spec rest

/-! ### Features and the orientation guard (workflow.py lines 170-330,
client.py lines 356-373) -/

/-- A Part Studio feature (featureId, name, suppressed flag). -/
structure Feature where
  featureId : String
  name : String
  suppressed : Bool
deriving DecidableEq

/-- Decimal digits to a natural number. -/
def digits_to_nat (cs : List Char) : Nat :=
  cs.foldl (fun n c => n * 10 + (c.toNat - 48)) 0

/-- The regular expression of workflow.py line 176, as a parser: the name
matches when it is exactly the base phrase (index 0) or the base phrase, a
space and one or more digits (that integer). -/
def parse_orient_index (name : String) : Option Nat :=
  if name == "Orient Plates for Export" then some 0
  else if py_startswith name "Orient Plates for Export " then
    let rest := name.data.drop "Orient Plates for Export ".length
    if !rest.isEmpty && rest.all Char.isDigit then some (digits_to_nat rest) else none
  else none

/-- workflow.py find_orient_feature, lines 170-189.  The source sorts the
candidate (index, feature) pairs descending with a stable sort and takes the
head, which is the first candidate carrying the maximal index; the fold below
computes that element directly. -/
def find_orient_feature (features : List Feature) : Option Feature :=
  let candidates := features.filterMap
    (fun f => (parse_orient_index f.name).map (fun i => (i, f)))
  match candidates with
  | [] => none
  | c :: cs => some (cs.foldl (fun best x => if x.1 > best.1 then x else best) c).2

/-- client.py update_feature_suppression, lines 356-373, seen from the
document side: the POST replaces the suppressed flag of the feature with the
given featureId. -/
def update_feature_suppression (features : List Feature) (featureId : String)
    (suppressed : Bool) : List Feature :=
  features.map (fun f =>
    if f.featureId == featureId then { f with suppressed := suppressed } else f)

/-- Type alias for export results: (element_id, filename)
(client.py line 27). -/
abbrev ExportResult := String × String

/-- Outcome of one export_part_as_dxf call inside the per-part loop of
export_part_studio: it returned a result, returned None, or raised (the loop
catches the exception). -/
inductive PartExport where
  | success (result : ExportResult)
  | failed
  | raised
deriving DecidableEq

/-- The results appended by the per-part loop: each success is appended,
failures and caught exceptions contribute nothing. -/
def collect_successes (outcomes : List PartExport) : List ExportResult :=
  outcomes.filterMap (fun o =>
    match o with
    | .success r => some r
    | _ => none)

/-- workflow.py export_part_studio, lines 258-330, seen from the feature
state of the Part Studio.  Phase 1 (flat patterns) never touches features and
its successful results are abstracted as flat_results.  For phase 2 the
source unsuppresses the orient feature, re-fetches parts and exports each
inside the try block, and the finally block re-suppresses; every per-part
exception is caught inside the loop, so the one call whose exception can
escape the try is the list_parts re-fetch (flag list_parts_raises).  An
escaping exception is the .error result.  The two API updates of the
suppressed flag are modelled as succeeding. -/
def export_part_studio (features : List Feature) (parts : List Part)
    (flat_results : List ExportResult) (list_parts_raises : Bool)
    (outcomes : List PartExport) : List Feature × Except Unit (List ExportResult) :=
  let regular_parts := (categorize_parts parts).2
  if regular_parts.isEmpty then (features, .ok flat_results)
  else
    match find_orient_feature features with
    | none => (features, .ok flat_results)
    | some orient_feature =>
      let fs1 := update_feature_suppression features orient_feature.featureId false
      if list_parts_raises then
        (update_feature_suppression fs1 orient_feature.featureId true, .error ())
      else
        (update_feature_suppression fs1 orient_feature.featureId true,
         .ok (flat_results ++ collect_successes outcomes))

/-! ### Temporary drawing lifecycle (workflow.py lines 194-255) -/

/-- client.py delete_element, lines 376-379, seen from the document side: the
element with the given id is removed from the listing. -/
def delete_element (elements : List DocElement) (eid : String) : List DocElement :=
  elements.filter (fun e => e.id != eid)

/-- Outcome of export_part_as_dxf after the temp drawing exists.  The
get_element_microversion call of workflow.py line 218 runs after the
creation of line 213 but before the try block of line 221 and is not
guarded, so an exception it raises escapes with the finally-delete never
run (raisedBeforeTry).  The remaining cases are the outcomes of the try
block: the render wait timed out (returns None), the translation failed
(returns None), the translation succeeded with a stored result element, or
some call inside the block raised. -/
inductive DxfOutcome where
  | raisedBeforeTry
  | renderTimeout
  | translationFailed
  | success (resultId : String)
  | raisedInBody
deriving DecidableEq

/-- workflow.py export_part_as_dxf, lines 194-255, seen from the document
element listing.  create_result is what create_drawing returned (None aborts
before anything was created).  A raisedBeforeTry outcome (the unguarded
microversion fetch of line 218) escapes before the try block begins, so no
delete happens and the temp drawing stays in the listing.  On success the
translation stores a result blob in the document, renamed to the final
filename.  The finally block deletes the temp drawing on every exit path
out of the try block, catching a failing delete (delete_fails); the
returned Bool records whether the delete was attempted. -/
def export_part_as_dxf (elements : List DocElement) (create_result : Option String)
    (temp_name : String) (outcome : DxfOutcome) (filename : String)
    (delete_fails : Bool) :
    List DocElement × Bool × Except Unit (Option ExportResult) :=
  match create_result with
  | none => (elements, false, .ok none)
  | some temp_id =>
    let els1 := elements ++ [⟨temp_id, temp_name, "DRAWING", ""⟩]
    let finish := fun (els : List DocElement) (res : Except Unit (Option ExportResult)) =>
      if delete_fails then (els, true, res) else (delete_element els temp_id, true, res)
    match outcome with
    | .raisedBeforeTry => (els1, false, .error ())
    | .renderTimeout => finish els1 (.ok none)
    | .translationFailed => finish els1 (.ok none)
    | .raisedInBody => finish els1 (.error ())
    | .success rid =>
      finish (els1 ++ [⟨rid, filename, "BLOB", ""⟩]) (.ok (some (rid, filename)))

/-! ### Export cleanup (workflow.py lines 80-140) -/

/-- One remote API call, for call-trace bookkeeping. -/
inductive ApiCall where
  | listElements
  | deleteElement (eid : String)
deriving DecidableEq

/-- workflow.py find_blobs_by_extension, lines 80-100. -/
def find_blobs_by_extension (elements : List DocElement) (extensions : List String) :
    List DocElement :=
  elements.filter (fun e =>
    e.elementType == "BLOB" &&
      extensions.any (fun ext => py_endswith (py_lower e.name) ext))

/-- workflow.py cleanup_exports, lines 119-140, returning the deleted count,
the trace of remote calls issued, and the resulting document listing.  The
immutable-context branch returns before any API call.  Per-element delete
failures are caught in the source (delete_elements, lines 103-116); deletes
are modelled as succeeding, matching the counted value. -/
def cleanup_exports (ctx : DocContext) (elements : List DocElement) :
    Nat × List ApiCall × List DocElement :=
  if !is_mutable ctx then (0, [], elements)
  else
    let blobs := find_blobs_by_extension elements [".dxf", ".pdf"]
    if blobs.isEmpty then (0, [.listElements], elements)
    else
      (blobs.length,
       .listElements :: blobs.map (fun b => .deleteElement b.id),
       blobs.foldl (fun els b => delete_element els b.id) elements)

/-! ### Result packaging (workflow.py lines 379-429) -/

/-- workflow.py line 407: safe_name replaces spaces and slashes. -/
def sanitize_filename (filename : String) : String :=
  py_replace_char (py_replace_char filename ' ' '_') '/' '_'

/-- The collision warning string of workflow.py line 412. -/
def collision_warning (safe_name first_id result_id : String) : String :=
  "Filename collision: " ++ squote ++ safe_name ++ squote ++
    " - kept element " ++ first_id ++ ", skipped element " ++ result_id

/-- First-binding lookup in an association list (the seen_filenames dict:
keys are inserted at most once, so first match is the binding). -/
def assoc_get (l : List (String × String)) (k : String) : Option String :=
  (l.find? (fun p => p.1 == k)).map (fun p => p.2)

/-- Loop state of the packaging loop: the seen_filenames dict, the archive
entries written so far (entry name, content), and the collision warnings. -/
structure PackState where
  seen_filenames : List (String × String)
  entries : List (String × String)
  collision_warnings : List String
deriving DecidableEq

/-- One iteration of the loop of workflow.py lines 406-423: sanitize, emit a
collision warning and skip if the name was seen, otherwise record the name as
seen, then download (a failing download skips the entry) and write the
entry. -/
def package_step (download : String → Option String) (st : PackState)
    (r : ExportResult) : PackState :=
  let safe_name := sanitize_filename r.2
  match assoc_get st.seen_filenames safe_name with
  | some first_id =>
    { st with collision_warnings :=
        st.collision_warnings ++ [collision_warning safe_name first_id r.1] }
  | none =>
    let st1 := { st with seen_filenames := st.seen_filenames ++ [(safe_name, r.1)] }
    match download r.1 with
    | none => st1
    | some content => { st1 with entries := st1.entries ++ [(safe_name, content)] }

/-- The fixed-name log entry of workflow.py line 426. -/
def log_entry_name : String := "export_operation.log"

/-- The timestamp-named archive of workflow.py line 399. -/
def zip_file_name (timestamp : String) : String :=
  "onshape_export_" ++ timestamp ++ ".zip"

/-- workflow.py package_results, lines 379-429.  The produced archive is
modelled by its name and its ordered entries; None means no archive file was
created (the empty-results early return of lines 393-395 happens before the
ZIP file is opened). -/
def package_results (timestamp : String) (results : List ExportResult)
    (download : String → Option String) (log_entries : List String) :
    Option (String × List (String × String)) × List String :=
  if results.isEmpty then (none, [])
  else
    let final := results.foldl (package_step download) ⟨[], [], []⟩
    (some (zip_file_name timestamp,
           final.entries ++ [(log_entry_name, String.intercalate "\n" log_entries)]),
     final.collision_warnings)

/-! ### Pipeline state and steps (workflow.py lines 36-53, 461-523) -/

/-- workflow.py WorkflowState, lines 36-47 (the client, context and output
directory are ambient here); zip_path holds the produced archive. -/
structure WorkflowState where
  results : List ExportResult
  log_entries : List String
  part_studios : List DocElement
  drawings : List DocElement
  zip_path : Option (String × List (String × String))
  collision_warnings : List String

/-- workflow.py log_step, lines 49-53, with the formatted wall-clock time as
the now argument. -/
def log_step (now : String) (state : WorkflowState) (msg : String) : WorkflowState :=
  { state with log_entries := state.log_entries ++ [now ++ " - " ++ msg] }

/-- workflow.py step_export_dxfs, lines 484-492; the per-Part-Studio export
is the function argument.  The source extends one local results list across
the loop and stores it at the end while logging through the state; extending
the stored results per Part Studio yields the same final state. -/
def step_export_dxfs (now : String) (exportPS : DocElement → List ExportResult)
    (state : WorkflowState) : WorkflowState :=
  state.part_studios.foldl (fun s ps =>
    let ps_results := exportPS ps
    let s2 := ps_results.foldl (fun acc r => log_step now acc ("Exported: " ++ r.2)) s
    { s2 with results := s2.results ++ ps_results }) state

/-- workflow.py step_export_pdfs, lines 494-502. -/
def step_export_pdfs (now : String) (exportDr : DocElement → Option ExportResult)
    (state : WorkflowState) : WorkflowState :=
  state.drawings.foldl (fun s dr =>
    match exportDr dr with
    | none => s
    | some r =>
      let s2 := log_step now s ("Exported: " ++ r.2)
      { s2 with results := s2.results ++ [r] }) state

/-- workflow.py step_package, lines 504-515. -/
def step_package (now timestamp : String) (download : String → Option String)
    (state : WorkflowState) : WorkflowState :=
  let packed := package_results timestamp state.results download state.log_entries
  let state1 := { state with zip_path := packed.1, collision_warnings := packed.2 }
  match packed.1 with
  | some zp => log_step now state1 ("SUCCESS: " ++ zp.1)
  | none => log_step now state1 "No files were exported"

/-! ### Claim C8: cleanup is a no-op against an immutable context -/

/-- C8: for every document context whose reference type is not workspace
(version or microversion), cleanup_exports returns 0 deletions, issues zero
remote API calls of any kind, and leaves the remote document unchanged. -/
theorem cleanup_exports_immutable_noop (ctx : DocContext) (elements : List DocElement)
    (h : is_mutable ctx = false) :
    cleanup_exports ctx elements = (0, [], elements) := by
  simp [cleanup_exports, h]

/-- C8 witness: cleanup against a version context with a DXF blob present. -/
theorem cleanup_exports_immutable_noop_witness :
    cleanup_exports (make_version_context "d" "v") [⟨"b1", "x.dxf", "BLOB", ""⟩] =
      (0, [], [⟨"b1", "x.dxf", "BLOB", ""⟩]) :=
  cleanup_exports_immutable_noop _ _ (by decide)

/-! ### Claim C5: translation poll classification -/

/-- C5: the translation poll computes exactly the outcome the spec
describes: scanning the fetched statuses in order, a status of Done with a
nonempty result-id list yields a success carrying the first result id, Done
with an empty list or Failed yields the failure outcome None (never a silent
success), any other status continues polling, and exhausting the timeout
yields the defined not-ready outcome None rather than an exception. -/
theorem poll_translation_classifies (fetches : List (Option TranslationResponse)) :
    poll_translation fetches = translation_outcome_spec fetches := by
  induction fetches with
  | nil => rfl
  | cons f rest ih =>
    cases f with
    | none =>
      simpa only [poll_translation, poll_until, translation_outcome_spec] using ih
    | some r =>
      cases hDone : (r.requestState == "DONE") with
      | true =>
        cases hids : r.resultElementIds with
        | nil =>
          simp [poll_translation, poll_until, translation_outcome_spec,
            check_state, check_state_sets_error, hDone, hids]
        | cons id tl =>
          simp [poll_translation, poll_until, translation_outcome_spec,
            check_state, check_state_sets_error, hDone, hids]
      | false =>
        cases hFail : (r.requestState == "FAILED") with
        | true =>
          simp [poll_translation, poll_until, translation_outcome_spec,
            check_state, check_state_sets_error, hDone, hFail]
        | false =>
          simpa only [poll_translation, poll_until, translation_outcome_spec,
            check_state, check_state_sets_error, hDone, hFail] using ih

/-! ### Claim C4: discovery and the reserved temporary prefixes -/

/-- C4 counterexample: a Part Studio element whose name starts with the
reserved marker TEMP_ is returned in the Part Studio list by discovery (the
reserved-prefix filter of the source is applied to the drawings list only),
so the claim that such an element appears in neither returned list fails. -/
theorem discover_exportables_counterexample :
    startswith_any "TEMP_Plate Studio" TEMP_ELEMENT_PREFIXES = true ∧
    (discover_exportables [⟨"e1", "TEMP_Plate Studio", "PARTSTUDIO", ""⟩]).1 =
      [⟨"e1", "TEMP_Plate Studio", "PARTSTUDIO", ""⟩] := by
  decide

/-- C4 amended: every document element whose name starts with a reserved
temporary-prefix marker is excluded from the returned Drawing list; the
returned Part Studio list is not filtered by the markers. -/
theorem discover_exportables_excludes_temp_drawings (elements : List DocElement)
    (e : DocElement) (h : startswith_any e.name TEMP_ELEMENT_PREFIXES = true) :
    e ∉ (discover_exportables elements).2 := by
  intro hmem
  simp only [discover_exportables] at hmem
  have h2 := (List.mem_filter.mp hmem).2
  rw [h] at h2
  exact absurd h2 (by decide)

/-- C4 witness: a temp-named drawing element is excluded from the Drawing
list. -/
theorem discover_exportables_excludes_temp_drawings_witness :
    (⟨"e2", "TEMP_D", "DRAWING", ""⟩ : DocElement) ∉
      (discover_exportables [⟨"e2", "TEMP_D", "DRAWING", ""⟩]).2 :=
  discover_exportables_excludes_temp_drawings _ _ (by decide)

/-! ### Claim C2: the temporary drawing never outlives the export -/

/-- C2 counterexample: the microversion fetch of workflow.py line 218 runs
after the temp drawing is created (line 213) but before the try block of
line 221 begins, and is not guarded; when it raises, the exception escapes
export_part_as_dxf with no delete attempted, and the temp drawing remains
in the document element listing.  This refutes the claim that the temporary
drawing is deleted on every exit path, including any exception raised after
creation. -/
theorem export_part_as_dxf_counterexample :
    (export_part_as_dxf [] (some "t1") "TEMP_P" .raisedBeforeTry "P.dxf" false).2.1
        = false ∧
    (⟨"t1", "TEMP_P", "DRAWING", ""⟩ : DocElement) ∈
      (export_part_as_dxf [] (some "t1") "TEMP_P" .raisedBeforeTry "P.dxf" false).1 ∧
    (export_part_as_dxf [] (some "t1") "TEMP_P" .raisedBeforeTry "P.dxf" false).2.2
        = .error () :=
  ⟨rfl, by decide, rfl⟩

/-- C2 amended: whenever the temporary drawing was successfully created and
the unguarded microversion fetch between creation and the try block did not
raise, the single part DXF export attempts the deletion of the temporary
drawing before returning on every exit path out of the try block (render
timeout, translation failure, success, and an exception raised inside the
try), and when the delete call succeeds the temporary element is absent
from the resulting document element listing.  When the microversion fetch
raises, the exception escapes before the try begins and the temp drawing
leaks, healed only by the reserved-prefix sweep of the next run. -/
theorem export_part_as_dxf_temp_deleted (elements : List DocElement)
    (temp_id temp_name filename : String) (outcome : DxfOutcome) (delete_fails : Bool)
    (houtcome : outcome ≠ .raisedBeforeTry) :
    (export_part_as_dxf elements (some temp_id) temp_name outcome filename delete_fails).2.1
        = true ∧
    (delete_fails = false →
      ∀ e ∈ (export_part_as_dxf elements (some temp_id) temp_name outcome
          filename delete_fails).1, e.id ≠ temp_id) := by
  constructor
  · cases outcome with
    | raisedBeforeTry => exact absurd rfl houtcome
    | renderTimeout => cases delete_fails <;> rfl
    | translationFailed => cases delete_fails <;> rfl
    | raisedInBody => cases delete_fails <;> rfl
    | success rid => cases delete_fails <;> rfl
  · intro hdf e hmem
    subst hdf
    cases outcome with
    | raisedBeforeTry => exact absurd rfl houtcome
    | renderTimeout => simpa using (List.mem_filter.mp hmem).2
    | translationFailed => simpa using (List.mem_filter.mp hmem).2
    | raisedInBody => simpa using (List.mem_filter.mp hmem).2
    | success rid => simpa using (List.mem_filter.mp hmem).2

/-- C2 witness: a successful export through a concrete temp drawing. -/
theorem export_part_as_dxf_temp_deleted_witness :
    (export_part_as_dxf [] (some "t1") "TEMP_P" (.success "r1") "P.dxf" false).2.1 = true ∧
    ∀ e ∈ (export_part_as_dxf [] (some "t1") "TEMP_P" (.success "r1") "P.dxf" false).1,
      e.id ≠ "t1" :=
  ⟨(export_part_as_dxf_temp_deleted [] "t1" "TEMP_P" "P.dxf" (.success "r1") false
      (by decide)).1,
   (export_part_as_dxf_temp_deleted [] "t1" "TEMP_P" "P.dxf" (.success "r1") false
      (by decide)).2 rfl⟩

/-! ### Claim C6: part categorization -/

/-- C6: for every input part list whose parts never carry an empty-string
unflattenedPartId (the server reports real ids or omits the field), the
categorization puts every flattened part in the flat-pattern set, no regular
part keeps a partId equal to the unflattenedPartId of any flat pattern, and
the two output sets are disjoint. -/
theorem categorize_parts_partitions (parts : List Part)
    (hwf : ∀ p ∈ parts, p.unflattenedPartId ≠ some "") :
    (∀ p ∈ parts, p.isFlattenedBody = true → p ∈ (categorize_parts parts).1) ∧
    (∀ f ∈ (categorize_parts parts).1, ∀ r ∈ (categorize_parts parts).2,
      ∀ x, f.unflattenedPartId = some x → r.partId ≠ some x) ∧
    (∀ p ∈ (categorize_parts parts).1, p ∉ (categorize_parts parts).2) := by
  refine ⟨?_, ?_, ?_⟩
  · intro p hp hflat
    simp only [categorize_parts]
    exact List.mem_filter.mpr ⟨hp, by simp [hflat]⟩
  · intro f hf r hr x hx hpid
    simp only [categorize_parts] at hf hr
    have hfp := List.mem_filter.mp hf
    have hrp := List.mem_filter.mp hr
    have hcond := hrp.2
    rw [hpid] at hcond
    have hxne : x ≠ "" := fun h0 => hwf f hfp.1 (h0 ▸ hx)
    have hxin : x ∈ (parts.filter (fun p => p.isFlattenedBody)).filterMap
        (fun p => if truthy_str p.unflattenedPartId then p.unflattenedPartId else none) := by
      refine List.mem_filterMap.mpr ⟨f, hf, ?_⟩
      rw [hx]
      simp [truthy_str, hxne]
    have hcontains := List.elem_iff.mpr hxin
    simp only [hcontains] at hcond
    exact absurd hcond (by decide)
  · intro p hp hmem
    simp only [categorize_parts] at hp hmem
    have h1 := (List.mem_filter.mp hp).2
    have h2 := (List.mem_filter.mp (List.mem_filter.mp hmem).1).2
    rw [h1] at h2
    exact absurd h2 (by decide)

/-- C6 witness: the sheet-metal scenario of the test suite, with a flat
pattern shadowing its source part. -/
theorem categorize_parts_partitions_witness :
    (∀ p ∈ [(⟨some "1", "Flat 1", true, some "2"⟩ : Part),
        ⟨some "2", "Sheet Metal", false, none⟩, ⟨some "3", "Regular", false, none⟩],
      p.isFlattenedBody = true →
      p ∈ (categorize_parts [⟨some "1", "Flat 1", true, some "2"⟩,
        ⟨some "2", "Sheet Metal", false, none⟩, ⟨some "3", "Regular", false, none⟩]).1) ∧
    (∀ f ∈ (categorize_parts [(⟨some "1", "Flat 1", true, some "2"⟩ : Part),
        ⟨some "2", "Sheet Metal", false, none⟩, ⟨some "3", "Regular", false, none⟩]).1,
      ∀ r ∈ (categorize_parts [(⟨some "1", "Flat 1", true, some "2"⟩ : Part),
        ⟨some "2", "Sheet Metal", false, none⟩, ⟨some "3", "Regular", false, none⟩]).2,
      ∀ x, f.unflattenedPartId = some x → r.partId ≠ some x) ∧
    (∀ p ∈ (categorize_parts [(⟨some "1", "Flat 1", true, some "2"⟩ : Part),
        ⟨some "2", "Sheet Metal", false, none⟩, ⟨some "3", "Regular", false, none⟩]).1,
      p ∉ (categorize_parts [(⟨some "1", "Flat 1", true, some "2"⟩ : Part),
        ⟨some "2", "Sheet Metal", false, none⟩, ⟨some "3", "Regular", false, none⟩]).2) :=
  categorize_parts_partitions _ (by decide)

/-! ### Claim C1: the orientation feature guard -/

/-- The running maximum fold used by find_orient_feature picks an element of
the candidate list. -/
theorem foldl_pick_mem (cs : List (Nat × Feature)) (c : Nat × Feature) :
    cs.foldl (fun best x => if x.1 > best.1 then x else best) c ∈ c :: cs := by
  induction cs generalizing c with
  | nil => simp
  | cons x xs ih =>
    simp only [List.foldl_cons]
    rcases List.mem_cons.mp (ih (if x.1 > c.1 then x else c)) with h1 | h1
    · rw [h1]
      split
      · exact List.mem_cons_of_mem _ (List.mem_cons_self _ _)
      · exact List.mem_cons_self _ _
    · exact List.mem_cons_of_mem _ (List.mem_cons_of_mem _ h1)

/-- The feature found by find_orient_feature is one of the given features. -/
theorem find_orient_feature_mem {features : List Feature} {f : Feature}
    (h : find_orient_feature features = some f) : f ∈ features := by
  simp only [find_orient_feature] at h
  cases hcand : features.filterMap
      (fun g => (parse_orient_index g.name).map (fun i => (i, g))) with
  | nil => rw [hcand] at h; exact absurd h (by simp)
  | cons c cs =>
    rw [hcand] at h
    have hf : (cs.foldl (fun best x => if x.1 > best.1 then x else best) c).2 = f :=
      Option.some.inj h
    have hmem : cs.foldl (fun best x => if x.1 > best.1 then x else best) c ∈
        features.filterMap (fun g => (parse_orient_index g.name).map (fun i => (i, g))) := by
      rw [hcand]; exact foldl_pick_mem cs c
    obtain ⟨g, hg, hgeq⟩ := List.mem_filterMap.mp hmem
    obtain ⟨i, _, heq⟩ := Option.map_eq_some'.mp hgeq
    have : g = f := by rw [← hf, ← heq]
    exact this ▸ hg

/-- Membership in an updated feature list forces the new suppressed flag on
every feature bearing the updated featureId. -/
theorem mem_update_suppressed {l : List Feature} {fid : String} {b : Bool} {g : Feature}
    (hg : g ∈ update_feature_suppression l fid b) (hid : g.featureId = fid) :
    g.suppressed = b := by
  obtain ⟨y, hy, hge⟩ := List.mem_map.mp hg
  split at hge
  · rw [← hge]
  · next h =>
    exact absurd (by simp [hge, hid]) h

/-- Updating the suppression flag preserves the multiset of featureIds. -/
theorem exists_update_featureId (l : List Feature) (fid : String) (b : Bool)
    (hf : ∃ y ∈ l, y.featureId = fid) :
    ∃ g ∈ update_feature_suppression l fid b, g.featureId = fid := by
  obtain ⟨y, hy, hyid⟩ := hf
  refine ⟨if y.featureId == fid then { y with suppressed := b } else y,
    List.mem_map_of_mem _ hy, ?_⟩
  split
  · simpa using hyid
  · exact hyid

/-- C1 counterexample: a Part Studio whose orientation feature starts out
unsuppressed (pre-guard suppressed flag false) and which has one regular
part.  After the guarded scope ends the feature carries suppressed = true,
not its pre-guard value, because the finally block of the source
unconditionally re-suppresses instead of restoring the recorded pre-guard
state. -/
theorem export_part_studio_counterexample :
    find_orient_feature [⟨"f1", "Orient Plates for Export", false⟩] =
      some ⟨"f1", "Orient Plates for Export", false⟩ ∧
    (categorize_parts [⟨some "p1", "Plate", false, none⟩]).2.isEmpty = false ∧
    (export_part_studio [⟨"f1", "Orient Plates for Export", false⟩]
        [⟨some "p1", "Plate", false, none⟩] [] false []).1 =
      [⟨"f1", "Orient Plates for Export", true⟩] ∧
    (⟨"f1", "Orient Plates for Export", true⟩ : Feature).suppressed ≠
      (⟨"f1", "Orient Plates for Export", false⟩ : Feature).suppressed := by
  refine ⟨by decide, by decide, by rfl, by decide⟩

/-- C1 amended: whenever the guard is entered (the orientation feature is
found and regular parts exist), after the guarded scope ends - every per-part
export succeeded, some failed, or an exception escaped the export loop - the
suppressed flag of the feature is true (re-suppressed unconditionally).  It
therefore equals the pre-guard value exactly when the feature was suppressed
before the guard toggled it. -/
theorem export_part_studio_resuppresses (features : List Feature) (parts : List Part)
    (flat_results : List ExportResult) (list_parts_raises : Bool)
    (outcomes : List PartExport) (f : Feature)
    (hfind : find_orient_feature features = some f)
    (hreg : (categorize_parts parts).2.isEmpty = false) :
    (∃ g ∈ (export_part_studio features parts flat_results list_parts_raises outcomes).1,
        g.featureId = f.featureId) ∧
    (∀ g ∈ (export_part_studio features parts flat_results list_parts_raises outcomes).1,
        g.featureId = f.featureId → g.suppressed = true) := by
  have hresult : (export_part_studio features parts flat_results list_parts_raises
      outcomes).1 = update_feature_suppression
        (update_feature_suppression features f.featureId false) f.featureId true := by
    simp only [export_part_studio, hreg, hfind]
    cases list_parts_raises <;> simp
  rw [hresult]
  constructor
  · refine exists_update_featureId _ _ _ (exists_update_featureId _ _ _ ?_)
    exact ⟨f, find_orient_feature_mem hfind, rfl⟩
  · intro g hg hid
    exact mem_update_suppressed hg hid

/-- C1 witness: the guard entered on a concrete feature list and part list,
with the scope exiting via an escaping exception from the part re-fetch. -/
theorem export_part_studio_resuppresses_witness :
    (∃ g ∈ (export_part_studio [⟨"f1", "Orient Plates for Export", true⟩]
        [⟨some "p1", "Plate", false, none⟩] [] true []).1, g.featureId = "f1") ∧
    (∀ g ∈ (export_part_studio [⟨"f1", "Orient Plates for Export", true⟩]
        [⟨some "p1", "Plate", false, none⟩] [] true []).1,
      g.featureId = "f1" → g.suppressed = true) :=
  export_part_studio_resuppresses _ _ [] true []
    ⟨"f1", "Orient Plates for Export", true⟩ (by decide) (by decide)

/-! ### Claim C3: fallback DXF filenames -/

theorem py_endswith_iff (s t : String) : py_endswith s t = true ↔ t.data <:+ s.data := by
  simp [py_endswith, List.isSuffixOf_iff_suffix]

theorem py_lower_data (s : String) : (py_lower s).data = s.data.map Char.toLower := rfl

theorem py_lower_append (a b : String) : py_lower (a ++ b) = py_lower a ++ py_lower b := by
  apply String.ext
  simp [py_lower_data, String.data_append, List.map_append]

theorem append_suffix_append_iff (a b c : List Char) : a ++ c <:+ b ++ c ↔ a <:+ b := by
  constructor
  · rintro ⟨t, ht⟩
    exact ⟨t, List.append_cancel_right (by simpa [List.append_assoc] using ht)⟩
  · rintro ⟨t, ht⟩
    exact ⟨t, by simp [← ht, List.append_assoc]⟩

theorem lower_append_dxf_data (x : String) :
    (py_lower (x ++ ".dxf")).data = (py_lower x).data ++ (".dxf" : String).data := by
  rw [py_lower_append, show py_lower ".dxf" = ".dxf" by decide, String.data_append]

theorem endswith_append_dxf (x : String) :
    py_endswith (py_lower (x ++ ".dxf")) ".dxf" = true := by
  rw [py_endswith_iff, lower_append_dxf_data]
  exact List.suffix_append _ _

theorem not_endswith_double_append_dxf (x : String)
    (h : py_endswith (py_lower x) ".dxf" = false) :
    py_endswith (py_lower (x ++ ".dxf")) ".dxf.dxf" = false := by
  rw [Bool.eq_false_iff]
  intro hcontra
  rw [py_endswith_iff, lower_append_dxf_data,
    show (".dxf.dxf" : String).data = (".dxf" : String).data ++ (".dxf" : String).data
      by decide, append_suffix_append_iff] at hcontra
  rw [Bool.eq_false_iff] at h
  exact h ((py_endswith_iff _ _).mpr hcontra)

theorem endswith_double_of_endswith (tstr x : String)
    (h : py_endswith (py_lower x) ".dxf" = true) :
    py_endswith (py_lower (tstr ++ x ++ ".dxf")) ".dxf.dxf" = true := by
  rw [py_endswith_iff] at h ⊢
  obtain ⟨u, hu⟩ := h
  have hdata : (py_lower (tstr ++ x ++ ".dxf")).data
      = (py_lower tstr).data ++ (py_lower x).data ++ (".dxf" : String).data := by
    rw [lower_append_dxf_data, py_lower_append, String.data_append]
  rw [hdata, ← hu,
    show (".dxf.dxf" : String).data = (".dxf" : String).data ++ (".dxf" : String).data
      by decide,
    show (py_lower tstr).data ++ (u ++ (".dxf" : String).data) ++ (".dxf" : String).data
      = ((py_lower tstr).data ++ u) ++
          ((".dxf" : String).data ++ (".dxf" : String).data)
      by simp [List.append_assoc]]
  exact List.suffix_append _ _

/-- When part number or revision is missing, build_export_filename takes the
fallback branch of client.py lines 320-327. -/
theorem build_export_filename_fallback (fallback_name : String) (props : PartProperties)
    (extension : String) (thickness_mm : Option ℚ) (include_material : Bool)
    (hmissing : props.part_number.getD "" = "" ∨ props.revision.getD "" = "") :
    build_export_filename fallback_name props extension thickness_mm include_material =
      if thickness_str_of thickness_mm != "" then
        thickness_str_of thickness_mm ++ fallback_name ++ "." ++ extension
      else if py_endswith (py_lower fallback_name) ("." ++ extension) then fallback_name
      else fallback_name ++ "." ++ extension := by
  simp only [build_export_filename]
  rcases hmissing with h | h <;> rw [h] <;> simp

/-- C3 counterexample: a source part name already ending in ".dxf" combined
with a thickness prefix produces a doubled ".dxf.dxf" suffix, contradicting
the claim that the fallback filename never carries a doubled suffix. -/
theorem build_dxf_filename_counterexample :
    build_dxf_filename "part.dxf" (some 3) {} = "3mmpart.dxf.dxf" ∧
    py_endswith (py_lower (build_dxf_filename "part.dxf" (some 3) {})) ".dxf.dxf" = true := by
  constructor
  · decide
  · decide

/-- C3 amended: for every source part name and every property set lacking
part number or revision, the fallback DXF filename always ends with ".dxf"
(case-insensitively); when no thickness prefix is present the extension is
appended only if the lowercased source name does not already end in ".dxf",
so no doubled suffix is introduced; but when a thickness prefix is present
the extension is appended unconditionally, so a source name already ending
in ".dxf" yields a doubled ".dxf.dxf" suffix. -/
theorem build_dxf_filename_fallback_suffix (fallback_name : String)
    (props : PartProperties) (thickness_mm : Option ℚ)
    (hmissing : props.part_number.getD "" = "" ∨ props.revision.getD "" = "") :
    py_endswith (py_lower (build_dxf_filename fallback_name thickness_mm props))
        ".dxf" = true ∧
    (thickness_str_of thickness_mm = "" →
      py_endswith (py_lower fallback_name) ".dxf.dxf" = false →
      py_endswith (py_lower (build_dxf_filename fallback_name thickness_mm props))
        ".dxf.dxf" = false) ∧
    (thickness_str_of thickness_mm ≠ "" →
      py_endswith (py_lower fallback_name) ".dxf" = true →
      py_endswith (py_lower (build_dxf_filename fallback_name thickness_mm props))
        ".dxf.dxf" = true) := by
  have hdot : ("." ++ "dxf" : String) = ".dxf" := rfl
  have hunfold := build_export_filename_fallback fallback_name props "dxf"
    thickness_mm true hmissing
  rw [hdot] at hunfold
  by_cases ht : thickness_str_of thickness_mm = ""
  · by_cases hend : py_endswith (py_lower fallback_name) ".dxf" = true
    · have hval : build_dxf_filename fallback_name thickness_mm props = fallback_name := by
        rw [build_dxf_filename, hunfold, ht]
        simp [hend]
      rw [hval]
      exact ⟨hend, fun _ hnd => hnd, fun hne _ => absurd ht hne⟩
    · have hval : build_dxf_filename fallback_name thickness_mm props
          = fallback_name ++ ".dxf" := by
        rw [build_dxf_filename, hunfold, ht]
        simp [hend]
        rw [String.append_assoc, hdot]
      rw [hval]
      refine ⟨endswith_append_dxf _, fun _ _ => ?_, fun hne _ => absurd ht hne⟩
      exact not_endswith_double_append_dxf _ (Bool.eq_false_iff.mpr hend)
  · have hval : build_dxf_filename fallback_name thickness_mm props
        = thickness_str_of thickness_mm ++ fallback_name ++ ".dxf" := by
      rw [build_dxf_filename, hunfold]
      simp [bne_iff_ne, ht]
      rw [String.append_assoc, hdot]
    rw [hval]
    refine ⟨endswith_append_dxf _, fun h0 _ => absurd h0 ht, fun _ hfend => ?_⟩
    exact endswith_double_of_endswith _ _ hfend

/-- C3 witness: a fallback name with no thickness prefix gains exactly one
".dxf" suffix. -/
theorem build_dxf_filename_fallback_suffix_witness :
    py_endswith (py_lower (build_dxf_filename "Bracket" none {})) ".dxf" = true :=
  (build_dxf_filename_fallback_suffix "Bracket" {} none (Or.inl rfl)).1

/-! ### Packaging loop lemmas (for C7, C9 and C10) -/

theorem assoc_get_append_of_some (l l2 : List (String × String)) (s v : String)
    (h : assoc_get l s = some v) : assoc_get (l ++ l2) s = some v := by
  unfold assoc_get at h ⊢
  rw [List.find?_append]
  obtain ⟨p, hp, hv⟩ := Option.map_eq_some'.mp h
  rw [hp]
  simp [hv]

theorem assoc_get_append_singleton_of_none (l : List (String × String)) (k v s : String)
    (h : assoc_get l s = none) :
    assoc_get (l ++ [(k, v)]) s = if k == s then some v else none := by
  unfold assoc_get at h ⊢
  rw [List.find?_append, Option.map_eq_none'.mp h]
  simp only [Option.none_or, List.find?]
  split
  · next hk => simp [hk]
  · next hk => simp [hk]

theorem package_step_seen_persist (download : String → Option String)
    (st : PackState) (r : ExportResult) (s v : String)
    (h : assoc_get st.seen_filenames s = some v) :
    assoc_get (package_step download st r).seen_filenames s = some v := by
  cases hx : assoc_get st.seen_filenames (sanitize_filename r.2) with
  | some fid => simpa [package_step, hx] using h
  | none =>
    cases hd : download r.1 <;>
      simpa [package_step, hx, hd] using assoc_get_append_of_some _ _ _ _ h

theorem package_loop_seen_persist (download : String → Option String)
    (L : List ExportResult) (st : PackState) (s v : String)
    (h : assoc_get st.seen_filenames s = some v) :
    assoc_get (L.foldl (package_step download) st).seen_filenames s = some v := by
  induction L generalizing st with
  | nil => exact h
  | cons a L ih =>
    rw [List.foldl_cons]
    exact ih _ (package_step_seen_persist download st a s v h)

theorem package_step_warn_mem (download : String → Option String)
    (st : PackState) (r : ExportResult) (w : String)
    (h : w ∈ st.collision_warnings) :
    w ∈ (package_step download st r).collision_warnings := by
  cases hx : assoc_get st.seen_filenames (sanitize_filename r.2) with
  | some fid => simp [package_step, hx]; exact Or.inl h
  | none => cases hd : download r.1 <;> simpa [package_step, hx, hd] using h

theorem package_loop_warn_mem (download : String → Option String)
    (L : List ExportResult) (st : PackState) (w : String)
    (h : w ∈ st.collision_warnings) :
    w ∈ (L.foldl (package_step download) st).collision_warnings := by
  induction L generalizing st with
  | nil => exact h
  | cons a L ih =>
    rw [List.foldl_cons]
    exact ih _ (package_step_warn_mem download st a w h)

theorem package_step_of_seen (download : String → Option String)
    (st : PackState) (r : ExportResult) (v : String)
    (h : assoc_get st.seen_filenames (sanitize_filename r.2) = some v) :
    package_step download st r = { st with collision_warnings :=
      st.collision_warnings ++ [collision_warning (sanitize_filename r.2) v r.1] } := by
  simp [package_step, h]

theorem package_step_insert (download : String → Option String)
    (st : PackState) (r : ExportResult)
    (h : assoc_get st.seen_filenames (sanitize_filename r.2) = none) :
    assoc_get (package_step download st r).seen_filenames (sanitize_filename r.2)
      = some r.1 := by
  cases hd : download r.1 <;>
    simp [package_step, h, hd, assoc_get_append_singleton_of_none _ _ _ _ h]

theorem package_loop_collision_mem (download : String → Option String)
    (L : List ExportResult) (st : PackState) (s v : String)
    (hseen : assoc_get st.seen_filenames s = some v) :
    ∀ r ∈ L, sanitize_filename r.2 = s →
      collision_warning s v r.1 ∈
        (L.foldl (package_step download) st).collision_warnings := by
  induction L generalizing st with
  | nil => intro r hr; exact absurd hr (List.not_mem_nil r)
  | cons a L ih =>
    intro r hr hs
    rcases List.mem_cons.mp hr with rfl | hr2
    · rw [List.foldl_cons]
      have hx : assoc_get st.seen_filenames (sanitize_filename r.2) = some v := by
        rw [hs]; exact hseen
      apply package_loop_warn_mem
      rw [package_step_of_seen download st r v hx, hs]
      simp
    · rw [List.foldl_cons]
      exact ih _ (package_step_seen_persist download st a s v hseen) r hr2 hs

theorem package_loop_fresh (download : String → Option String)
    (L : List ExportResult) (st : PackState) (s : String)
    (h : assoc_get st.seen_filenames s = none)
    (hL : ∀ r ∈ L, sanitize_filename r.2 ≠ s) :
    assoc_get (L.foldl (package_step download) st).seen_filenames s = none := by
  induction L generalizing st with
  | nil => exact h
  | cons a L ih =>
    rw [List.foldl_cons]
    have hstep : assoc_get (package_step download st a).seen_filenames s = none := by
      have hne : sanitize_filename a.2 ≠ s := hL a (List.mem_cons_self a L)
      cases hx : assoc_get st.seen_filenames (sanitize_filename a.2) with
      | some fid => simpa [package_step, hx] using h
      | none =>
        cases hd : download a.1 <;>
          simp [package_step, hx, hd,
            assoc_get_append_singleton_of_none _ _ _ _ h, hne]
    exact ih _ hstep (fun r hr => hL r (List.mem_cons_of_mem a hr))

theorem package_loop_entries_no_name (download : String → Option String)
    (L : List ExportResult) (st : PackState) (s v : String)
    (hseen : assoc_get st.seen_filenames s = some v)
    (hent : s ∉ st.entries.map Prod.fst) :
    s ∉ (L.foldl (package_step download) st).entries.map Prod.fst := by
  induction L generalizing st with
  | nil => exact hent
  | cons a L ih
  =>
    rw [List.foldl_cons]
    cases hx : assoc_get st.seen_filenames (sanitize_filename a.2) with
    | some fid =>
      refine ih _ ?_ ?_
      · exact package_step_seen_persist download st a s v hseen
      · simpa [package_step, hx] using hent
    | none =>
      have hne : sanitize_filename a.2 ≠ s := by
        intro heq
        rw [heq, hseen] at hx
        cases hx
      refine ih _ (package_step_seen_persist download st a s v hseen) ?_
      cases hd : download a.1 with
      | none => simpa [package_step, hx, hd] using hent
      | some c =>
        simp only [package_step, hx, hd, List.map_append, List.map_cons]
        intro hmem
        rcases List.mem_append.mp hmem with h1 | h1
        · exact hent h1
        · simp at h1
          exact hne h1.symm

theorem package_loop_entry_names_subset (download : String → Option String)
    (L : List ExportResult) (st : PackState) :
    ∀ n ∈ (L.foldl (package_step download) st).entries.map Prod.fst,
      n ∈ st.entries.map Prod.fst ∨ ∃ r ∈ L, sanitize_filename r.2 = n := by
  induction L generalizing st with
  | nil => intro n hn; exact Or.inl hn
  | cons a L ih =>
    intro n hn
    rw [List.foldl_cons] at hn
    rcases ih (package_step download st a) n hn with h1 | h1
    · cases hx : assoc_get st.seen_filenames (sanitize_filename a.2) with
      | some fid =>
        rw [package_step_of_seen download st a fid hx] at h1
        exact Or.inl h1
      | none =>
        cases hd : download a.1 with
        | none => simp only [package_step, hx, hd] at h1; exact Or.inl h1
        | some c =>
          simp only [package_step, hx, hd, List.map_append, List.map_cons] at h1
          rcases List.mem_append.mp h1 with h2 | h2
          · exact Or.inl h2
          · simp at h2
            exact Or.inr ⟨a, List.mem_cons_self a L, h2.symm⟩
    · obtain ⟨r, hr, hrn⟩ := h1
      exact Or.inr ⟨r, List.mem_cons_of_mem a hr, hrn⟩

theorem package_step_entry_inv (download : String → Option String)
    (st : PackState) (a : ExportResult)
    (hinv : ∀ n ∈ st.entries.map Prod.fst,
      ∃ v, assoc_get st.seen_filenames n = some v) :
    ∀ n ∈ (package_step download st a).entries.map Prod.fst,
      ∃ v, assoc_get (package_step download st a).seen_filenames n = some v := by
  intro n hn
  cases hx : assoc_get st.seen_filenames (sanitize_filename a.2) with
  | some fid =>
    rw [package_step_of_seen download st a fid hx] at hn ⊢
    exact hinv n hn
  | none =>
    cases hd : download a.1 with
    | none =>
      simp only [package_step, hx, hd] at hn ⊢
      obtain ⟨v, hv⟩ := hinv n hn
      exact ⟨v, assoc_get_append_of_some _ _ _ _ hv⟩
    | some c =>
      simp only [package_step, hx, hd, List.map_append, List.map_cons] at hn ⊢
      rcases List.mem_append.mp hn with h1 | h1
      · obtain ⟨v, hv⟩ := hinv n h1
        exact ⟨v, assoc_get_append_of_some _ _ _ _ hv⟩
      · simp at h1
        subst h1
        refine ⟨a.1, ?_⟩
        rw [assoc_get_append_singleton_of_none _ _ _ _ hx]
        simp

theorem package_loop_entry_inv (download : String → Option String)
    (L : List ExportResult) (st : PackState)
    (hinv : ∀ n ∈ st.entries.map Prod.fst,
      ∃ v, assoc_get st.seen_filenames n = some v) :
    ∀ n ∈ (L.foldl (package_step download) st).entries.map Prod.fst,
      ∃ v, assoc_get (L.foldl (package_step download) st).seen_filenames n = some v := by
  induction L generalizing st with
  | nil => exact hinv
  | cons a L ih =>
    rw [List.foldl_cons]
    exact ih _ (package_step_entry_inv download st a hinv)

theorem package_step_nodup (download : String → Option String)
    (st : PackState) (a : ExportResult)
    (hinv : ∀ n ∈ st.entries.map Prod.fst,
      ∃ v, assoc_get st.seen_filenames n = some v)
    (hnd : (st.entries.map Prod.fst).Nodup) :
    ((package_step download st a).entries.map Prod.fst).Nodup := by
  cases hx : assoc_get st.seen_filenames (sanitize_filename a.2) with
  | some fid =>
    rw [package_step_of_seen download st a fid hx]
    exact hnd
  | none =>
    cases hd : download a.1 with
    | none => simpa [package_step, hx, hd] using hnd
    | some c =>
      simp only [package_step, hx, hd, List.map_append, List.map_cons, List.map_nil]
      rw [List.nodup_append]
      refine ⟨hnd, List.nodup_singleton _, ?_⟩
      intro n hn hn1
      simp at hn1
      obtain ⟨v, hv⟩ := hinv n hn
      rw [hn1] at hv
      rw [hv] at hx
      cases hx

theorem package_loop_entries_nodup (download : String → Option String)
    (L : List ExportResult) (st : PackState)
    (hinv : ∀ n ∈ st.entries.map Prod.fst,
      ∃ v, assoc_get st.seen_filenames n = some v)
    (hnd : (st.entries.map Prod.fst).Nodup) :
    ((L.foldl (package_step download) st).entries.map Prod.fst).Nodup := by
  induction L generalizing st with
  | nil => exact hnd
  | cons a L ih =>
    rw [List.foldl_cons]
    exact ih _ (package_step_entry_inv download st a hinv)
      (package_step_nodup download st a hinv hnd)

/-- The non-empty branch of package_results, spelled out. -/
theorem package_results_of_ne_nil (timestamp : String) (results : List ExportResult)
    (download : String → Option String) (log_entries : List String)
    (h : results ≠ []) :
    package_results timestamp results download log_entries =
      (some (zip_file_name timestamp,
        (results.foldl (package_step download) ⟨[], [], []⟩).entries
          ++ [(log_entry_name, String.intercalate "\n" log_entries)]),
       (results.foldl (package_step download) ⟨[], [], []⟩).collision_warnings) := by
  simp [package_results, List.isEmpty_iff, h]

/-! ### Claim C7: collision policy of the packager -/

/-- C7: on the scenario [(e1, A.dxf), (e2, A.dxf), (e3, B.dxf)] with all
downloads succeeding, the archive holds exactly the two distinct file
entries plus the fixed-name log entry, and exactly one collision warning
names e1 as kept and e2 as skipped.  In general, whenever a result r1 is the
first occurrence of its sanitized name and a later result r2 produces the
same sanitized name, the collision warning naming r1 kept and r2 skipped is
emitted, the file entries of the archive carry pairwise distinct names
(nothing is overwritten), and every file entry name is the sanitized name of
some input result (nothing is auto-renamed). -/
theorem package_results_collision_policy :
    (package_results "T" [("e1", "A.dxf"), ("e2", "A.dxf"), ("e3", "B.dxf")]
        (fun _ => some "data") ["log"] =
      (some ("onshape_export_T.zip",
        [("A.dxf", "data"), ("B.dxf", "data"), ("export_operation.log", "log")]),
       [collision_warning "A.dxf" "e1" "e2"])) ∧
    (∀ (ts : String) (download : String → Option String) (logs : List String)
        (results pre mid post : List ExportResult) (r₁ r₂ : ExportResult),
      results = pre ++ r₁ :: (mid ++ r₂ :: post) →
      sanitize_filename r₁.2 ∉ pre.map (fun r => sanitize_filename r.2) →
      sanitize_filename r₂.2 = sanitize_filename r₁.2 →
      collision_warning (sanitize_filename r₁.2) r₁.1 r₂.1 ∈
          (package_results ts results download logs).2 ∧
      ∀ archive, (package_results ts results download logs).1 = some archive →
        (archive.2.dropLast.map Prod.fst).Nodup ∧
        ∀ n ∈ archive.2.dropLast.map Prod.fst,
          ∃ r ∈ results, sanitize_filename r.2 = n) := by
  constructor
  · decide
  · intro ts download logs results pre mid post r₁ r₂ hres hpre hs
    subst hres
    have hne : pre ++ r₁ :: (mid ++ r₂ :: post) ≠ [] := by simp
    rw [package_results_of_ne_nil _ _ _ _ hne]
    rw [List.foldl_append, List.foldl_cons]
    have hfresh : assoc_get ((List.foldl (package_step download) ⟨[], [], []⟩
        pre)).seen_filenames (sanitize_filename r₁.2) = none := by
      refine package_loop_fresh download pre ⟨[], [], []⟩ _ rfl ?_
      intro r hr heq
      exact hpre (heq ▸ List.mem_map_of_mem (fun r => sanitize_filename r.2) hr)
    have hins := package_step_insert download _ r₁ hfresh
    constructor
    · exact package_loop_collision_mem download (mid ++ r₂ :: post) _
        (sanitize_filename r₁.2) r₁.1 hins r₂
        (List.mem_append_right mid (List.mem_cons_self r₂ post)) hs
    · intro archive harch
      have harch2 := (Option.some.inj harch).symm
      subst harch2
      simp only [List.dropLast_concat]
      constructor
      · rw [← List.foldl_cons, ← List.foldl_append]
        refine package_loop_entries_nodup download _ ⟨[], [], []⟩ ?_ ?_
        · intro n hn; exact absurd hn (List.not_mem_nil n)
        · exact List.nodup_nil
      · rw [← List.foldl_cons, ← List.foldl_append]
        intro n hn
        rcases package_loop_entry_names_subset download _ ⟨[], [], []⟩ n hn with h1 | h1
        · exact absurd h1 (List.not_mem_nil n)
        · exact h1

/-- C7 witness: the general collision clause applied to the concrete
scenario. -/
theorem package_results_collision_policy_witness :
    collision_warning "A.dxf" "e1" "e2" ∈
      (package_results "T" [("e1", "A.dxf"), ("e2", "A.dxf"), ("e3", "B.dxf")]
        (fun _ => some "data") ["log"]).2 := by
  have h := (package_results_collision_policy.2 "T" (fun _ => some "data") ["log"]
    [("e1", "A.dxf"), ("e2", "A.dxf"), ("e3", "B.dxf")]
    [] [] [("e3", "B.dxf")] ("e1", "A.dxf") ("e2", "A.dxf")
    rfl (by decide) (by decide)).1
  simpa using h

/-! ### Claim C9: empty result list means no archive -/

/-- C9: the packager returns no archive and no collision warnings for an
empty result list, and a pipeline whose discovery found zero Part Studios
and zero Drawings (starting from an empty result accumulator) finishes the
packaging stage with no archive, no collision warnings, and the log message
"No files were exported"; every stage is a total function of the state, so
no error is raised. -/
theorem package_results_empty_no_archive (now ts : String)
    (download : String → Option String)
    (expPS : DocElement → List ExportResult)
    (expDr : DocElement → Option ExportResult) (st : WorkflowState)
    (hps : st.part_studios = []) (hdr : st.drawings = []) (hres : st.results = []) :
    (∀ (ts2 : String) (dl : String → Option String) (logs : List String),
      package_results ts2 [] dl logs = (none, [])) ∧
    step_package now ts download (step_export_pdfs now expDr
        (step_export_dxfs now expPS st)) =
      { st with zip_path := none, collision_warnings := [],
                log_entries := st.log_entries ++
                  [now ++ " - " ++ "No files were exported"] } := by
  constructor
  · intro ts2 dl logs; rfl
  · have h1 : step_export_dxfs now expPS st = st := by
      simp [step_export_dxfs, hps]
    have h2 : step_export_pdfs now expDr st = st := by
      simp [step_export_pdfs, hdr]
    rw [h1, h2]
    simp [step_package, hres, package_results, log_step]

/-- C9 witness: a concrete run that discovered nothing. -/
theorem package_results_empty_no_archive_witness :
    (∀ (ts2 : String) (dl : String → Option String) (logs : List String),
      package_results ts2 [] dl logs = (none, [])) ∧
    step_package "NOW" "T" (fun _ => some "data") (step_export_pdfs "NOW" (fun _ => none)
        (step_export_dxfs "NOW" (fun _ => []) ⟨[], ["start"], [], [], none, []⟩)) =
      { (⟨[], ["start"], [], [], none, []⟩ : WorkflowState) with
          zip_path := none, collision_warnings := [],
          log_entries := ["start"] ++ ["NOW" ++ " - " ++ "No files were exported"] } :=
  package_results_empty_no_archive "NOW" "T" (fun _ => some "data") (fun _ => [])
    (fun _ => none) ⟨[], ["start"], [], [], none, []⟩ rfl rfl rfl

/-! ### Claim C10: a failed first download still reserves its name -/

/-- C10: the packager records a sanitized name as seen before attempting the
download.  Hence whenever the first result bearing a sanitized name - at any
position in the result list - fails to download, no archive entry with that
name exists, yet every later result with the same sanitized name is dropped
and reported as a collision naming the absent element as the one kept.  (The
hypothesis that the name differs from the fixed log entry name keeps the log
entry out of the comparison.) -/
theorem package_results_failed_download_reserves (pre : List ExportResult)
    (rid₁ f₁ : String) (rest : List ExportResult) (ts : String)
    (download : String → Option String) (logs : List String)
    (hdl : download rid₁ = none)
    (hpre : sanitize_filename f₁ ∉ pre.map (fun r => sanitize_filename r.2))
    (hlog : sanitize_filename f₁ ≠ log_entry_name) :
    (∀ archive,
      (package_results ts (pre ++ (rid₁, f₁) :: rest) download logs).1 = some archive →
      sanitize_filename f₁ ∉ archive.2.map Prod.fst) ∧
    (∀ r ∈ rest, sanitize_filename r.2 = sanitize_filename f₁ →
      collision_warning (sanitize_filename f₁) rid₁ r.1 ∈
        (package_results ts (pre ++ (rid₁, f₁) :: rest) download logs).2) := by
  have hne : pre ++ (rid₁, f₁) :: rest ≠ [] := by simp
  rw [package_results_of_ne_nil _ _ _ _ hne, List.foldl_append, List.foldl_cons]
  have hfresh : assoc_get ((List.foldl (package_step download) ⟨[], [], []⟩
      pre)).seen_filenames (sanitize_filename f₁) = none := by
    refine package_loop_fresh download pre ⟨[], [], []⟩ _ rfl ?_
    intro r hr heq
    exact hpre (heq ▸ List.mem_map_of_mem (fun r => sanitize_filename r.2) hr)
  have hins := package_step_insert download _ (rid₁, f₁) hfresh
  have hstep_entries : (package_step download
      (List.foldl (package_step download) ⟨[], [], []⟩ pre) (rid₁, f₁)).entries
      = (List.foldl (package_step download) ⟨[], [], []⟩ pre).entries := by
    simp [package_step, hfresh, hdl]
  have hent : sanitize_filename f₁ ∉
      (package_step download (List.foldl (package_step download) ⟨[], [], []⟩ pre)
        (rid₁, f₁)).entries.map Prod.fst := by
    rw [hstep_entries]
    intro hmem
    obtain ⟨v, hv⟩ := package_loop_entry_inv download pre ⟨[], [], []⟩
      (fun n hn => absurd hn (List.not_mem_nil n)) _ hmem
    rw [hv] at hfresh
    cases hfresh
  constructor
  · intro archive harch
    have harch2 := (Option.some.inj harch).symm
    subst harch2
    simp only [List.map_append, List.map_cons, List.map_nil]
    intro hmem
    rcases List.mem_append.mp hmem with h1 | h1
    · exact package_loop_entries_no_name download rest _ _ rid₁ hins hent h1
    · simp at h1
      exact hlog h1
  · intro r hr hs
    exact package_loop_collision_mem download rest _ _ rid₁ hins r hr hs

/-- C10 witness: after an unrelated preceding result, the first A.dxf bearer
fails to download; the later A.dxf is reported as a collision against it and
no A.dxf entry exists. -/
theorem package_results_failed_download_reserves_witness :
    (∀ archive, (package_results "T" [("e0", "C.dxf"), ("e1", "A.dxf"), ("e2", "A.dxf")]
        (fun rid => if rid == "e1" then none else some "data") ["log"]).1 = some archive →
      sanitize_filename "A.dxf" ∉ archive.2.map Prod.fst) ∧
    (∀ r ∈ [("e2", "A.dxf")], sanitize_filename r.2 = sanitize_filename "A.dxf" →
      collision_warning (sanitize_filename "A.dxf") "e1" r.1 ∈
        (package_results "T" [("e0", "C.dxf"), ("e1", "A.dxf"), ("e2", "A.dxf")]
          (fun rid => if rid == "e1" then none else some "data") ["log"]).2) :=
  package_results_failed_download_reserves [("e0", "C.dxf")] "e1" "A.dxf"
    [("e2", "A.dxf")] "T" (fun rid => if rid == "e1" then none else some "data") ["log"]
    (by decide) (by decide) (by decide)

end Onshape
